import Mathlib

/-!
Shallow embedding of the Quantum Garden particle-physics core
(`src/utils/math.ts`, `src/physics/ParticleSystem.ts`, `src/core/Engine.ts`).
JavaScript numbers are modelled as real numbers; `Math.random` draws are
passed in as explicit parameters; the hsla CSS colour string is kept as its
numeric components (string formatting is presentational only).
-/

namespace QuantumGarden

/-- 2D vector, from `Vector2` in `src/types/index.ts`. -/
structure Vector2 where
  x : ℝ
  y : ℝ

/-- Colour as numeric hsla components; the source formats these into a CSS
string `hsla(h, s%, l%, a)` (`hsl` in `src/utils/math.ts`), which is purely
presentational. -/
structure Hsla where
  h : ℝ
  s : ℝ
  l : ℝ
  a : ℝ

/-- `hsl(h, s, l)` from `src/utils/math.ts` with the default alpha `1`. -/
def hsl (h s l : ℝ) : Hsla := ⟨h, s, l, 1⟩

/-- `clamp(value, min, max) = Math.max(min, Math.min(max, value))` from
`src/utils/math.ts` (bound names renamed to avoid clashing with `min`/`max`). -/
def clamp (value lo hi : ℝ) : ℝ := max lo (min hi value)

namespace Vec2

/-- `Vec2.create` (defaults are `0`). -/
def create (x y : ℝ) : Vector2 := ⟨x, y⟩

/-- `Vec2.add`. -/
def add (a b : Vector2) : Vector2 := ⟨a.x + b.x, a.y + b.y⟩

/-- `Vec2.sub`. -/
def sub (a b : Vector2) : Vector2 := ⟨a.x - b.x, a.y - b.y⟩

/-- `Vec2.mult`. -/
def mult (v : Vector2) (scalar : ℝ) : Vector2 := ⟨v.x * scalar, v.y * scalar⟩

/-- `Vec2.div`: guarded division, returns `(0,0)` when the scalar is `0`. -/
noncomputable def div (v : Vector2) (scalar : ℝ) : Vector2 :=
  if scalar ≠ 0 then ⟨v.x / scalar, v.y / scalar⟩ else ⟨0, 0⟩

/-- `Vec2.magnitude`. -/
noncomputable def magnitude (v : Vector2) : ℝ := Real.sqrt (v.x * v.x + v.y * v.y)

/-- `Vec2.magnitudeSq`. -/
def magnitudeSq (v : Vector2) : ℝ := v.x * v.x + v.y * v.y

/-- `Vec2.normalize`: `v / |v|` when `|v| > 0`, else `(0,0)`. -/
noncomputable def normalize (v : Vector2) : Vector2 :=
  if magnitude v > 0 then div v (magnitude v) else ⟨0, 0⟩

/-- `Vec2.rotate` by an angle in radians. -/
noncomputable def rotate (v : Vector2) (angle : ℝ) : Vector2 :=
  ⟨v.x * Real.cos angle - v.y * Real.sin angle,
   v.x * Real.sin angle + v.y * Real.cos angle⟩

end Vec2

/-- `Particle` from `src/types/index.ts`. -/
structure Particle where
  id : ℕ
  position : Vector2
  oldPosition : Vector2
  velocity : Vector2
  acceleration : Vector2
  mass : ℝ
  radius : ℝ
  color : Hsla
  life : ℝ
  maxLife : ℝ
  fixed : Bool

/-- `ForceFieldType` from `src/types/index.ts`. -/
inductive ForceFieldType where
  | attractor
  | repulsor
  | vortex
  | directional

/-- `ForceField` from `src/types/index.ts`. -/
structure ForceField where
  id : ℕ
  type : ForceFieldType
  position : Vector2
  strength : ℝ
  radius : ℝ
  color : Hsla
  active : Bool

/-- `GameConfig` from `src/types/index.ts` (`maxParticles` is a count). -/
structure GameConfig where
  gravity : ℝ
  friction : ℝ
  maxParticles : ℕ
  spatialGridSize : ℝ
  particleRadius : ℝ
  particleLifetime : ℝ
  fieldStrength : ℝ
  fieldRadius : ℝ

/-- The `ParticleSystem` class state: particle list (in creation order:
`push` appends at the end, `pop` removes from the end), id counter,
configuration and viewport dimensions. -/
structure ParticleSystem where
  particles : List Particle
  nextId : ℕ
  config : GameConfig
  width : ℝ
  height : ℝ

namespace ParticleSystem

/-- `createParticle(position, velocity?)`. The resolved velocity (the
argument, or the random draw used when it is absent) and the random hue
draw are passed explicitly. Returns the updated system state and the
newly created particle. -/
def createParticle (sys : ParticleSystem) (position vel : Vector2) (hue : ℝ) :
    ParticleSystem × Particle :=
  let particles :=
    if sys.particles.length ≥ sys.config.maxParticles then
      sys.particles.dropLast
    else
      sys.particles
  let particle : Particle :=
    { id := sys.nextId
      position := position
      oldPosition := Vec2.sub position vel
      velocity := vel
      acceleration := Vec2.create 0 0
      mass := 1
      radius := sys.config.particleRadius
      color := hsl hue 80 60
      life := sys.config.particleLifetime
      maxLife := sys.config.particleLifetime
      fixed := false }
  ({ sys with particles := particles ++ [particle], nextId := sys.nextId + 1 },
   particle)

/-- One spawn request: position, resolved velocity, hue draw. -/
structure SpawnInput where
  position : Vector2
  vel : Vector2
  hue : ℝ

/-- A sequence of `createParticle` calls, folded over the system state. -/
def spawnAll (sys : ParticleSystem) (inputs : List SpawnInput) : ParticleSystem :=
  inputs.foldl (fun s i => (s.createParticle i.position i.vel i.hue).1) sys

/-- `calculateFieldForce(field, direction, distance)`: the per-type force
law (the `default` branch of the `switch` covers `directional`). -/
noncomputable def calculateFieldForce (field : ForceField) (direction : Vector2)
    (distance : ℝ) : Vector2 :=
  let strength := field.strength * (1 - distance / field.radius)
  let normalized := Vec2.normalize direction
  match field.type with
  | .attractor => Vec2.mult normalized strength
  | .repulsor => Vec2.mult normalized (-strength)
  | .vortex =>
      let perpendicular := Vec2.rotate normalized (Real.pi / 2)
      let tangential := Vec2.mult perpendicular strength
      let radial := Vec2.mult normalized (strength * 0.2)
      Vec2.add tangential radial
  | .directional => Vec2.create 0 0

/-- The loop body of `calculateForces`: skip inactive fields
(`if (!field.active) continue`), and add the field force when the squared
distance is strictly inside `(0.1, radius²)`. -/
noncomputable def forceAccum (particle : Particle) (totalForce : Vector2)
    (field : ForceField) : Vector2 :=
  if field.active then
    let direction := Vec2.sub field.position particle.position
    let distanceSq := Vec2.magnitudeSq direction
    let radiusSq := field.radius * field.radius
    if distanceSq < radiusSq ∧ distanceSq > 0.1 then
      let distance := Real.sqrt distanceSq
      Vec2.add totalForce (calculateFieldForce field direction distance)
    else totalForce
  else totalForce

/-- `calculateForces(particle, fields)`: gravity on the vertical axis plus
the contribution of every active field within range, accumulated in field
order. -/
noncomputable def calculateForces (config : GameConfig) (particle : Particle)
    (fields : List ForceField) : Vector2 :=
  fields.foldl (forceAccum particle) (Vec2.create 0 config.gravity)

/-- Lines 62–84 of `update`'s loop body: Verlet integration with friction
damping, history shift, and the guarded velocity recomputation. Boundary
constraints and the lifetime decrement follow separately. -/
noncomputable def verletStep (config : GameConfig) (dt : ℝ)
    (fields : List ForceField) (p : Particle) : Particle :=
  let pos := p.position
  let oldPos := p.oldPosition
  let velocity := Vec2.sub pos oldPos
  let dampedVelocity := Vec2.mult velocity (config.friction / 100)
  let acceleration := calculateForces config p fields
  { p with
    position := ⟨pos.x + dampedVelocity.x + acceleration.x * (dt * dt),
                 pos.y + dampedVelocity.y + acceleration.y * (dt * dt)⟩
    oldPosition := pos
    velocity := if dt > 0.0001 then Vec2.mult velocity (1 / dt) else p.velocity }

/-- The restitution (bounce) factor of `applyConstraints`. -/
def restitution : ℝ := 0.8

/-- The left/right-walls block of `applyConstraints` (lines 158–167). -/
noncomputable def constrainX (width : ℝ) (p : Particle) : Particle :=
  if p.position.x < p.radius then
    let px := p.radius
    let oldVelX := px - p.oldPosition.x
    { p with
      position := ⟨px, p.position.y⟩
      oldPosition := ⟨px + oldVelX * restitution, p.oldPosition.y⟩ }
  else if p.position.x > width - p.radius then
    let px := width - p.radius
    let oldVelX := px - p.oldPosition.x
    { p with
      position := ⟨px, p.position.y⟩
      oldPosition := ⟨px + oldVelX * restitution, p.oldPosition.y⟩ }
  else p

/-- The top/bottom-walls block of `applyConstraints` (lines 169–178). -/
noncomputable def constrainY (height : ℝ) (p : Particle) : Particle :=
  if p.position.y < p.radius then
    let py := p.radius
    let oldVelY := py - p.oldPosition.y
    { p with
      position := ⟨p.position.x, py⟩
      oldPosition := ⟨p.oldPosition.x, py + oldVelY * restitution⟩ }
  else if p.position.y > height - p.radius then
    let py := height - p.radius
    let oldVelY := py - p.oldPosition.y
    { p with
      position := ⟨p.position.x, py⟩
      oldPosition := ⟨p.oldPosition.x, py + oldVelY * restitution⟩ }
  else p

/-- `applyConstraints(particle)`: clamp against the four walls with
restitution `0.8`; the horizontal axis is resolved fully before the
vertical one. -/
noncomputable def applyConstraints (width height : ℝ) (p : Particle) : Particle :=
  constrainY height (constrainX width p)

/-- The whole `update` loop body for one particle: fixed particles are
skipped (`continue`); otherwise integrate, apply constraints, and
decrement the lifetime. -/
noncomputable def integrateParticle (config : GameConfig) (width height : ℝ)
    (dt : ℝ) (fields : List ForceField) (p : Particle) : Particle :=
  if p.fixed then p
  else
    let stepped := verletStep config dt fields p
    let constrained := applyConstraints width height stepped
    { constrained with life := constrained.life - dt }

/-- `update(dt, fields)`: advance every particle, then remove dead ones
(`this.particles = this.particles.filter(p => p.life > 0)`). -/
noncomputable def update (sys : ParticleSystem) (dt : ℝ)
    (fields : List ForceField) : ParticleSystem :=
  { sys with
    particles :=
      (sys.particles.map (integrateParticle sys.config sys.width sys.height dt fields)).filter
        (fun p => decide (p.life > 0)) }

/-- `getParticles()`. -/
def getParticles (sys : ParticleSystem) : List Particle := sys.particles

/-- `clear()`. -/
def clear (sys : ParticleSystem) : ParticleSystem := { sys with particles := [] }

/-- `resize(width, height)`. -/
def resize (sys : ParticleSystem) (width height : ℝ) : ParticleSystem :=
  { sys with width := width, height := height }

end ParticleSystem

namespace Engine

/-- The fixed timestep `1/60` of `src/core/Engine.ts`. -/
noncomputable def fixedDelta : ℝ := 1 / 60

/-- Line 49 of `Engine.loop`:
`deltaTime = Math.min((currentTime - lastTime) / 1000, 0.1)`. -/
noncomputable def deltaTime (currentTime lastTime : ℝ) : ℝ :=
  min ((currentTime - lastTime) / 1000) 0.1

/-- The spec's description of the same line:
`deltaTime = clamp((now - lastFrameTime)/1000, 0, 0.1)` — a second
definition following the spec's words, to be compared with `deltaTime`. -/
noncomputable def deltaTimeSpec (currentTime lastTime : ℝ) : ℝ :=
  clamp ((currentTime - lastTime) / 1000) 0 0.1

/-- The `while (accumulator >= fixedDelta)` drain loop of `Engine.loop`,
as a small-step relation: `DrainRel acc upds acc'` holds when, starting
from accumulator `acc`, the loop performs the update calls recorded in
`upds` (each entry the `dt` passed to the update callback) and exits with
accumulator `acc'`. -/
inductive DrainRel : ℝ → List ℝ → ℝ → Prop where
  | done {acc : ℝ} : acc < fixedDelta → DrainRel acc [] acc
  | step {acc acc' : ℝ} {upds : List ℝ} :
      fixedDelta ≤ acc → DrainRel (acc - fixedDelta) upds acc' →
      DrainRel acc (fixedDelta :: upds) acc'

/-- One invocation of `Engine.loop`'s body after the `deltaTime`
computation: the measured `deltaTime` is added to the accumulator, the
accumulator is drained in fixed steps, and then the render callback runs
exactly once. `FrameRel acc deltaTime upds acc' renders`. -/
inductive FrameRel : ℝ → ℝ → List ℝ → ℝ → ℕ → Prop where
  | mk {acc dt acc' : ℝ} {upds : List ℝ} :
      DrainRel (acc + dt) upds acc' → FrameRel acc dt upds acc' 1

end Engine

/-! Spec-side definitions, used to state claims against the code. -/

/-- Sum of a list of vectors (zero-initialised), for stating the spec's
"linear sum of all contributing fields". -/
def vecSum (l : List Vector2) : Vector2 := l.foldr Vec2.add ⟨0, 0⟩

/-- The spec's description of one field's contribution to a particle's
acceleration: non-zero only when the field is active and the squared
distance is strictly below `radius²` and strictly above `0.1`; with
`falloff = strength * (1 - distance/radius)` and `n` the normalised
direction from particle to field, an attractor contributes `falloff * n`,
a repulsor `-falloff * n`, a vortex `rot90(n) * falloff + n * falloff * 0.2`,
and a directional field zero. A second definition following the spec's
words, to be compared with `calculateForces`. -/
noncomputable def specFieldContribution (particle : Particle) (field : ForceField) :
    Vector2 :=
  let direction := Vec2.sub field.position particle.position
  let distanceSq := Vec2.magnitudeSq direction
  if field.active = true ∧ distanceSq < field.radius ^ 2 ∧ distanceSq > 0.1 then
    let distance := Real.sqrt distanceSq
    let falloff := field.strength * (1 - distance / field.radius)
    let n := Vec2.normalize direction
    match field.type with
    | .attractor => Vec2.mult n falloff
    | .repulsor => Vec2.mult n (-falloff)
    | .vortex =>
        Vec2.add (Vec2.mult (Vec2.rotate n (Real.pi / 2)) falloff)
          (Vec2.mult n (falloff * 0.2))
    | .directional => ⟨0, 0⟩
  else ⟨0, 0⟩

/-! Concrete instances used by witnesses and counterexamples. -/

/-- The default configuration of `Game.ts` (gravity 50, friction 98,
particle radius 3, lifetime 30). -/
def cfgA : GameConfig := ⟨50, 98, 2000, 50, 3, 30, 100, 100⟩

/-- A non-fixed particle with position `(10,10)` and old position `(9,9)`. -/
def pA : Particle := ⟨0, ⟨10, 10⟩, ⟨9, 9⟩, ⟨1, 1⟩, ⟨0, 0⟩, 1, 3, hsl 200 80 60, 30, 30, false⟩

/-- A non-fixed particle resting at `(200,200)` in a 400×400 viewport. -/
def pC : Particle := ⟨0, ⟨200, 200⟩, ⟨200, 200⟩, ⟨0, 0⟩, ⟨0, 0⟩, 1, 3, hsl 200 80 60, 30, 30, false⟩

/-- A system holding `pC` under the default configuration. -/
def sysC : ParticleSystem := ⟨[pC], 1, cfgA, 400, 400⟩

/-- A degenerate configuration: particle radius 5, no gravity, no friction,
lifetime 2. -/
def cfgB : GameConfig := ⟨0, 0, 2000, 50, 5, 2, 0, 0⟩

/-- A non-fixed particle of radius 5 resting at `(2,2)`. -/
def pB : Particle := ⟨0, ⟨2, 2⟩, ⟨2, 2⟩, ⟨0, 0⟩, ⟨0, 0⟩, 1, 5, hsl 200 80 60, 2, 2, false⟩

/-- A 4×4 viewport (smaller than the particle diameter 10) holding `pB`. -/
def sysB : ParticleSystem := ⟨[pB], 1, cfgB, 4, 4⟩

/-- A configuration with `maxParticles = 0`. -/
def cfgZ : GameConfig := ⟨0, 0, 0, 0, 1, 1, 0, 0⟩

/-- An empty system with `maxParticles = 0`. -/
def sysZ : ParticleSystem := ⟨[], 0, cfgZ, 100, 100⟩

/-- A spawn request at `(1,1)` with zero velocity. -/
def iZ : ParticleSystem.SpawnInput := ⟨⟨1, 1⟩, ⟨0, 0⟩, 200⟩

/-- A configuration with `maxParticles = 1`. -/
def cfgOne : GameConfig := ⟨0, 0, 1, 0, 1, 5, 0, 0⟩

/-- A non-fixed particle of radius 1 at `(1,1)`. -/
def pOne : Particle := ⟨0, ⟨1, 1⟩, ⟨1, 1⟩, ⟨0, 0⟩, ⟨0, 0⟩, 1, 1, hsl 200 80 60, 5, 5, false⟩

/-- A system at capacity (`1` particle, `maxParticles = 1`). -/
def sysOne : ParticleSystem := ⟨[pOne], 1, cfgOne, 100, 100⟩

/-- A configuration with gravity 100 and friction 0. -/
def cfgD : GameConfig := ⟨100, 0, 2000, 50, 3, 30, 0, 0⟩

/-- A non-fixed particle at rest at the origin with cached velocity `(7,7)`. -/
def pD : Particle := ⟨0, ⟨0, 0⟩, ⟨0, 0⟩, ⟨7, 7⟩, ⟨0, 0⟩, 1, 3, hsl 200 80 60, 30, 30, false⟩

/-! Helper lemmas. -/

lemma vec_add_zero (v : Vector2) : Vec2.add v ⟨0, 0⟩ = v := by
  simp [Vec2.add]

lemma vec_add_assoc (a b c : Vector2) :
    Vec2.add (Vec2.add a b) c = Vec2.add a (Vec2.add b c) := by
  simp [Vec2.add, add_assoc]

lemma verletStep_radius (cfg : GameConfig) (dt : ℝ) (fields : List ForceField)
    (p : Particle) : (ParticleSystem.verletStep cfg dt fields p).radius = p.radius := rfl

lemma verletStep_life (cfg : GameConfig) (dt : ℝ) (fields : List ForceField)
    (p : Particle) : (ParticleSystem.verletStep cfg dt fields p).life = p.life := rfl

lemma verletStep_fixed (cfg : GameConfig) (dt : ℝ) (fields : List ForceField)
    (p : Particle) : (ParticleSystem.verletStep cfg dt fields p).fixed = p.fixed := rfl

lemma constrainX_radius (w : ℝ) (p : Particle) :
    (ParticleSystem.constrainX w p).radius = p.radius := by
  simp only [ParticleSystem.constrainX]
  split_ifs <;> rfl

lemma constrainX_life (w : ℝ) (p : Particle) :
    (ParticleSystem.constrainX w p).life = p.life := by
  simp only [ParticleSystem.constrainX]
  split_ifs <;> rfl

lemma constrainX_fixed (w : ℝ) (p : Particle) :
    (ParticleSystem.constrainX w p).fixed = p.fixed := by
  simp only [ParticleSystem.constrainX]
  split_ifs <;> rfl

lemma constrainX_velocity (w : ℝ) (p : Particle) :
    (ParticleSystem.constrainX w p).velocity = p.velocity := by
  simp only [ParticleSystem.constrainX]
  split_ifs <;> rfl

lemma constrainY_radius (h : ℝ) (p : Particle) :
    (ParticleSystem.constrainY h p).radius = p.radius := by
  simp only [ParticleSystem.constrainY]
  split_ifs <;> rfl

lemma constrainY_life (h : ℝ) (p : Particle) :
    (ParticleSystem.constrainY h p).life = p.life := by
  simp only [ParticleSystem.constrainY]
  split_ifs <;> rfl

lemma constrainY_fixed (h : ℝ) (p : Particle) :
    (ParticleSystem.constrainY h p).fixed = p.fixed := by
  simp only [ParticleSystem.constrainY]
  split_ifs <;> rfl

lemma constrainY_velocity (h : ℝ) (p : Particle) :
    (ParticleSystem.constrainY h p).velocity = p.velocity := by
  simp only [ParticleSystem.constrainY]
  split_ifs <;> rfl

lemma verletStep_velocity (cfg : GameConfig) (dt : ℝ) (fields : List ForceField)
    (p : Particle) :
    (ParticleSystem.verletStep cfg dt fields p).velocity
      = if dt > 0.0001 then Vec2.mult (Vec2.sub p.position p.oldPosition) (1 / dt)
        else p.velocity := rfl

lemma applyConstraints_life (w h : ℝ) (p : Particle) :
    (ParticleSystem.applyConstraints w h p).life = p.life := by
  rw [ParticleSystem.applyConstraints, constrainY_life, constrainX_life]

lemma applyConstraints_velocity (w h : ℝ) (p : Particle) :
    (ParticleSystem.applyConstraints w h p).velocity = p.velocity := by
  rw [ParticleSystem.applyConstraints, constrainY_velocity, constrainX_velocity]

lemma applyConstraints_radius (w h : ℝ) (p : Particle) :
    (ParticleSystem.applyConstraints w h p).radius = p.radius := by
  rw [ParticleSystem.applyConstraints, constrainY_radius, constrainX_radius]

lemma applyConstraints_fixed (w h : ℝ) (p : Particle) :
    (ParticleSystem.applyConstraints w h p).fixed = p.fixed := by
  rw [ParticleSystem.applyConstraints, constrainY_fixed, constrainX_fixed]

lemma integrateParticle_of_not_fixed (cfg : GameConfig) (w h dt : ℝ)
    (fields : List ForceField) (q : Particle) (hfix : q.fixed = false) :
    ParticleSystem.integrateParticle cfg w h dt fields q
      = { ParticleSystem.applyConstraints w h (ParticleSystem.verletStep cfg dt fields q) with
          life := (ParticleSystem.applyConstraints w h
                      (ParticleSystem.verletStep cfg dt fields q)).life - dt } := by
  simp [ParticleSystem.integrateParticle, hfix]

lemma integrateParticle_life (cfg : GameConfig) (w h dt : ℝ)
    (fields : List ForceField) (q : Particle) (hfix : q.fixed = false) :
    (ParticleSystem.integrateParticle cfg w h dt fields q).life = q.life - dt := by
  rw [integrateParticle_of_not_fixed cfg w h dt fields q hfix]
  show (ParticleSystem.applyConstraints w h (ParticleSystem.verletStep cfg dt fields q)).life - dt
      = q.life - dt
  rw [applyConstraints_life, verletStep_life]

lemma update_particles (sys : ParticleSystem) (dt : ℝ) (fields : List ForceField) :
    (sys.update dt fields).particles
      = (sys.particles.map
          (ParticleSystem.integrateParticle sys.config sys.width sys.height dt fields)).filter
          (fun p => decide (p.life > 0)) := rfl

/-! Claim theorems. -/

/-- C1: for every `update(dt, fields)` call and every non-fixed particle,
the loop body is the Verlet step followed by boundary constraints and the
lifetime decrement; the position after the Verlet step (before boundary
constraints) equals `position + (position - oldPosition) * (friction/100)
+ acceleration * dt²` componentwise, where the acceleration is
`calculateForces` (gravity plus fields), and afterwards `oldPosition`
equals the position from before the step. -/
theorem verlet_integration_step (cfg : GameConfig) (w h dt : ℝ)
    (fields : List ForceField) (p : Particle) (hfix : p.fixed = false) :
    ParticleSystem.integrateParticle cfg w h dt fields p
      = { ParticleSystem.applyConstraints w h (ParticleSystem.verletStep cfg dt fields p) with
          life := (ParticleSystem.applyConstraints w h
                      (ParticleSystem.verletStep cfg dt fields p)).life - dt }
    ∧ (ParticleSystem.verletStep cfg dt fields p).position
        = ⟨p.position.x + (p.position.x - p.oldPosition.x) * (cfg.friction / 100)
              + (ParticleSystem.calculateForces cfg p fields).x * dt ^ 2,
           p.position.y + (p.position.y - p.oldPosition.y) * (cfg.friction / 100)
              + (ParticleSystem.calculateForces cfg p fields).y * dt ^ 2⟩
    ∧ (ParticleSystem.verletStep cfg dt fields p).oldPosition = p.position := by
  refine ⟨?_, ?_, rfl⟩
  · simp [ParticleSystem.integrateParticle, hfix]
  · simp only [ParticleSystem.verletStep, Vec2.sub, Vec2.mult, Vector2.mk.injEq]
    constructor <;> ring

/-- Witness for C1 at the default configuration, `dt = 1`, no fields,
and a particle at `(10,10)` with old position `(9,9)`. -/
theorem verlet_integration_step_witness :
    (ParticleSystem.verletStep cfgA 1 [] pA).position = ⟨10.98, 60.98⟩
    ∧ (ParticleSystem.verletStep cfgA 1 [] pA).oldPosition = ⟨10, 10⟩ := by
  have h := verlet_integration_step cfgA 400 400 1 [] pA rfl
  refine ⟨?_, h.2.2⟩
  rw [h.2.1]
  simp only [ParticleSystem.calculateForces, List.foldl_nil, Vec2.create, pA, cfgA]
  norm_num

lemma forceAccum_spec (p : Particle) (acc : Vector2) (f : ForceField) :
    ParticleSystem.forceAccum p acc f = Vec2.add acc (specFieldContribution p f) := by
  simp only [ParticleSystem.forceAccum, specFieldContribution]
  by_cases ha : f.active = true
  · by_cases hc : Vec2.magnitudeSq (Vec2.sub f.position p.position) < f.radius * f.radius
        ∧ Vec2.magnitudeSq (Vec2.sub f.position p.position) > 0.1
    · rw [if_pos ha, if_pos hc, if_pos ⟨ha, by rw [pow_two]; exact hc.1, hc.2⟩,
        ParticleSystem.calculateFieldForce]
      cases f.type <;> rfl
    · rw [if_pos ha, if_neg hc,
        if_neg (fun hcon => hc ⟨by rw [← pow_two]; exact hcon.2.1, hcon.2.2⟩)]
      exact (vec_add_zero acc).symm
  · rw [if_neg ha, if_neg (fun hcon => ha hcon.1)]
    exact (vec_add_zero acc).symm

lemma forces_foldl (p : Particle) (fields : List ForceField) :
    ∀ acc : Vector2,
      fields.foldl (ParticleSystem.forceAccum p) acc
        = Vec2.add acc (vecSum (fields.map (specFieldContribution p))) := by
  induction fields with
  | nil => intro acc; simp [vecSum, vec_add_zero]
  | cons f fs ih =>
      intro acc
      simp only [List.foldl_cons, List.map_cons]
      rw [ih, forceAccum_spec, vec_add_assoc]
      rfl

/-- C2: the total acceleration from `calculateForces` is constant gravity
on the vertical axis plus the linear sum of the per-field contributions
described by the spec (`specFieldContribution`): each field contributes
only when active with squared distance strictly inside `(0.1, radius²)`,
and then an attractor contributes `falloff * n`, a repulsor `-falloff * n`,
a vortex `rot90(n) * falloff + n * (falloff * 0.2)`, and a directional
field zero. -/
theorem field_force_decomposition (cfg : GameConfig) (p : Particle)
    (fields : List ForceField) :
    ParticleSystem.calculateForces cfg p fields
      = Vec2.add (Vec2.create 0 cfg.gravity)
          (vecSum (fields.map (specFieldContribution p))) := by
  rw [ParticleSystem.calculateForces]
  exact forces_foldl p fields _

/-- C10: the vector primitives are total with guarded division:
`normalize` divides by the magnitude only when it is strictly positive and
returns `(0,0)` on the zero vector; `div` returns `(0,0)` when the scalar
is `0`. -/
theorem vec2_guarded_division (v : Vector2) :
    (0 < Vec2.magnitude v →
        Vec2.normalize v = ⟨v.x / Vec2.magnitude v, v.y / Vec2.magnitude v⟩)
    ∧ (v = Vec2.create 0 0 → Vec2.normalize v = Vec2.create 0 0)
    ∧ Vec2.div v 0 = Vec2.create 0 0 := by
  refine ⟨fun hpos => ?_, fun hzero => ?_, ?_⟩
  · rw [Vec2.normalize, if_pos hpos, Vec2.div, if_pos hpos.ne']
  · subst hzero
    simp [Vec2.normalize, Vec2.magnitude, Vec2.create]
  · simp [Vec2.div, Vec2.create]

/-- Witness for C10 at `v = (3,4)` (magnitude `5`). -/
theorem vec2_guarded_division_witness :
    Vec2.normalize ⟨3, 4⟩ = ⟨3 / 5, 4 / 5⟩ ∧ Vec2.div ⟨3, 4⟩ 0 = Vec2.create 0 0 := by
  have hm : Vec2.magnitude ⟨3, 4⟩ = 5 := by
    rw [Vec2.magnitude]
    rw [show ((3:ℝ) * 3 + 4 * 4) = 5 ^ 2 by norm_num]
    exact Real.sqrt_sq (by norm_num)
  have h := vec2_guarded_division ⟨3, 4⟩
  refine ⟨?_, h.2.2⟩
  rw [h.1 (by rw [hm]; norm_num), hm]

/-- C5: on a tick of positive duration, each non-fixed particle's life
drops by exactly `dt` (hence strictly decreases), and every particle still
present after `update` returns has `life > 0`. -/
theorem life_decrement (sys : ParticleSystem) (dt : ℝ) (fields : List ForceField)
    (hdt : 0 < dt) :
    (∀ q ∈ sys.particles, q.fixed = false →
        (ParticleSystem.integrateParticle sys.config sys.width sys.height dt fields q).life
            = q.life - dt
        ∧ (ParticleSystem.integrateParticle sys.config sys.width sys.height dt fields q).life
            < q.life)
    ∧ ∀ p ∈ (sys.update dt fields).particles, 0 < p.life := by
  constructor
  · intro q _ hfix
    have hl := integrateParticle_life sys.config sys.width sys.height dt fields q hfix
    exact ⟨hl, by rw [hl]; linarith⟩
  · intro p hp
    rw [update_particles] at hp
    exact of_decide_eq_true (List.mem_filter.mp hp).2

/-- Witness for C5: the resting particle `pC` loses exactly `1` unit of
life on a tick with `dt = 1`. -/
theorem life_decrement_witness :
    (ParticleSystem.integrateParticle sysC.config sysC.width sysC.height 1 [] pC).life
      = pC.life - 1 :=
  ((life_decrement sysC 1 [] (by norm_num)).1 pC (by simp [sysC]) rfl).1

/-- Counterexample for C8: the code computes
`deltaTime = Math.min((now - last)/1000, 0.1)` with no lower clamp at `0`;
with `now = 0` and `last = 1000` the result is `-1`, which is negative and
differs from the claimed `clamp(…, 0, 0.1)` (which gives `0`). -/
theorem delta_clamp_cex :
    Engine.deltaTime 0 1000 = -1 ∧ Engine.deltaTimeSpec 0 1000 = 0
    ∧ Engine.deltaTime 0 1000 < 0 := by
  refine ⟨?_, ?_, ?_⟩
  · rw [Engine.deltaTime]
    norm_num [min_def]
  · rw [Engine.deltaTimeSpec]
    norm_num [clamp, max_def, min_def]
  · rw [Engine.deltaTime]
    norm_num [min_def]

/-- C8 (amended): the deltaTime added to the accumulator equals
`min((now - lastFrameTime)/1000, 0.1)`; it never exceeds `0.1`, and it is
nonnegative whenever `now ≥ lastFrameTime`, but there is no lower clamp for
a current timestamp earlier than the previous one. -/
theorem delta_clamp_amended (now last : ℝ) :
    Engine.deltaTime now last = min ((now - last) / 1000) 0.1
    ∧ Engine.deltaTime now last ≤ 0.1
    ∧ (last ≤ now → 0 ≤ Engine.deltaTime now last) := by
  refine ⟨rfl, min_le_right _ _, fun hle => ?_⟩
  rw [Engine.deltaTime]
  exact le_min (div_nonneg (by linarith) (by norm_num)) (by norm_num)

/-- Witness for C8 (amended) at `now = 5`, `last = 3`. -/
theorem delta_clamp_amended_witness :
    Engine.deltaTime 5 3 ≤ 0.1 ∧ 0 ≤ Engine.deltaTime 5 3 :=
  ⟨(delta_clamp_amended 5 3).2.1, (delta_clamp_amended 5 3).2.2 (by norm_num)⟩

/-- Counterexample for C9: with gravity `100`, friction `0`, `dt = 1` and a
particle at rest at the origin, the code leaves the cached velocity at
`(0,0)` (computed from the pre-step positions), while the claim's formula
`(position - oldPosition_before_shift)/dt` — with `position` read after the
step, as the spec's step ordering implies — gives `(0,100)`. -/
theorem velocity_formula_cex :
    (ParticleSystem.verletStep cfgD 1 [] pD).velocity
      ≠ Vec2.mult
          (Vec2.sub (ParticleSystem.verletStep cfgD 1 [] pD).position pD.oldPosition)
          (1 / 1) := by
  have hvel : (ParticleSystem.verletStep cfgD 1 [] pD).velocity = ⟨0, 0⟩ := by
    rw [verletStep_velocity, if_pos (by norm_num)]
    simp [pD, Vec2.sub, Vec2.mult]
  have hpos : (ParticleSystem.verletStep cfgD 1 [] pD).position = ⟨0, 100⟩ := by
    simp only [ParticleSystem.verletStep, ParticleSystem.calculateForces,
      List.foldl_nil, Vec2.create, Vec2.sub, Vec2.mult, pD, cfgD, Vector2.mk.injEq]
    norm_num
  rw [hvel, hpos]
  simp [pD, Vec2.sub, Vec2.mult, Vector2.mk.injEq]

/-- C9 (amended): when `dt` exceeds `0.0001` the cached velocity becomes
`(position_before_step - oldPosition_before_step) / dt` (the same
difference that fed the integration); when `dt` is at or below the epsilon
the previous velocity is kept. -/
theorem velocity_formula_amended (cfg : GameConfig) (w h dt : ℝ)
    (fields : List ForceField) (p : Particle) (hfix : p.fixed = false) :
    (0.0001 < dt →
        (ParticleSystem.integrateParticle cfg w h dt fields p).velocity
          = Vec2.mult (Vec2.sub p.position p.oldPosition) (1 / dt))
    ∧ (¬ 0.0001 < dt →
        (ParticleSystem.integrateParticle cfg w h dt fields p).velocity = p.velocity) := by
  have hv : (ParticleSystem.integrateParticle cfg w h dt fields p).velocity
      = (ParticleSystem.verletStep cfg dt fields p).velocity := by
    rw [integrateParticle_of_not_fixed cfg w h dt fields p hfix]
    show (ParticleSystem.applyConstraints w h (ParticleSystem.verletStep cfg dt fields p)).velocity
        = _
    rw [applyConstraints_velocity]
  constructor
  · intro hdt
    rw [hv, verletStep_velocity, if_pos hdt]
  · intro hdt
    rw [hv, verletStep_velocity, if_neg hdt]

/-- Witness for C9 (amended): at `dt = 1` the cached velocity equals the
pre-step position difference. -/
theorem velocity_formula_amended_witness :
    (ParticleSystem.integrateParticle cfgD 400 400 1 [] pD).velocity
      = Vec2.mult (Vec2.sub pD.position pD.oldPosition) (1 / 1) :=
  (velocity_formula_amended cfgD 400 400 1 [] pD rfl).1 (by norm_num)

lemma constrainX_posx (w : ℝ) (p : Particle) :
    (ParticleSystem.constrainX w p).position.x
      = if p.position.x < p.radius then p.radius
        else if p.position.x > w - p.radius then w - p.radius
        else p.position.x := by
  simp only [ParticleSystem.constrainX]
  split_ifs <;> rfl

lemma constrainX_posy (w : ℝ) (p : Particle) :
    (ParticleSystem.constrainX w p).position.y = p.position.y := by
  simp only [ParticleSystem.constrainX]
  split_ifs <;> rfl

lemma constrainY_posy (h : ℝ) (p : Particle) :
    (ParticleSystem.constrainY h p).position.y
      = if p.position.y < p.radius then p.radius
        else if p.position.y > h - p.radius then h - p.radius
        else p.position.y := by
  simp only [ParticleSystem.constrainY]
  split_ifs <;> rfl

lemma constrainY_posx (h : ℝ) (p : Particle) :
    (ParticleSystem.constrainY h p).position.x = p.position.x := by
  simp only [ParticleSystem.constrainY]
  split_ifs <;> rfl

lemma constrainX_bounds (w : ℝ) (p : Particle) (h2 : 2 * p.radius ≤ w) :
    p.radius ≤ (ParticleSystem.constrainX w p).position.x
    ∧ (ParticleSystem.constrainX w p).position.x ≤ w - p.radius := by
  rw [constrainX_posx]
  split_ifs with h1 hr
  · exact ⟨le_rfl, by linarith⟩
  · exact ⟨by linarith, le_rfl⟩
  · exact ⟨not_lt.mp h1, not_lt.mp hr⟩

lemma constrainY_bounds (h : ℝ) (p : Particle) (h2 : 2 * p.radius ≤ h) :
    p.radius ≤ (ParticleSystem.constrainY h p).position.y
    ∧ (ParticleSystem.constrainY h p).position.y ≤ h - p.radius := by
  rw [constrainY_posy]
  split_ifs with h1 hr
  · exact ⟨le_rfl, by linarith⟩
  · exact ⟨by linarith, le_rfl⟩
  · exact ⟨not_lt.mp h1, not_lt.mp hr⟩

lemma applyConstraints_bounds (w h : ℝ) (p : Particle)
    (hw : 2 * p.radius ≤ w) (hh : 2 * p.radius ≤ h) :
    p.radius ≤ (ParticleSystem.applyConstraints w h p).position.x
    ∧ (ParticleSystem.applyConstraints w h p).position.x ≤ w - p.radius
    ∧ p.radius ≤ (ParticleSystem.applyConstraints w h p).position.y
    ∧ (ParticleSystem.applyConstraints w h p).position.y ≤ h - p.radius := by
  rw [ParticleSystem.applyConstraints]
  have hxb := constrainX_bounds w p hw
  have hqrad : (ParticleSystem.constrainX w p).radius = p.radius := constrainX_radius w p
  have hyb := constrainY_bounds h (ParticleSystem.constrainX w p) (by rw [hqrad]; exact hh)
  rw [constrainY_posx, hqrad] at *
  exact ⟨hxb.1, hxb.2, hyb.1, hyb.2⟩

lemma createParticle_particles_shape (sys : ParticleSystem) (pos vel : Vector2)
    (hue : ℝ) :
    (sys.createParticle pos vel hue).1.particles
      = (if sys.particles.length ≥ sys.config.maxParticles then sys.particles.dropLast
         else sys.particles) ++ [(sys.createParticle pos vel hue).2] := rfl

lemma createParticle_getLast (sys : ParticleSystem) (pos vel : Vector2) (hue : ℝ) :
    (sys.createParticle pos vel hue).1.particles.getLast?
      = some (sys.createParticle pos vel hue).2 := by
  rw [createParticle_particles_shape]
  exact List.getLast?_concat _

lemma createParticle_length (sys : ParticleSystem) (pos vel : Vector2) (hue : ℝ)
    (hmax : 1 ≤ sys.config.maxParticles)
    (hle : sys.particles.length ≤ sys.config.maxParticles) :
    (sys.createParticle pos vel hue).1.particles.length
      = min (sys.particles.length + 1) sys.config.maxParticles := by
  rw [createParticle_particles_shape, List.length_append]
  rcases le_or_lt sys.config.maxParticles sys.particles.length with hcap | hcap
  · rw [if_pos hcap]
    simp only [List.length_dropLast, List.length_singleton]
    omega
  · rw [if_neg (by omega)]
    simp only [List.length_singleton]
    omega

lemma spawnAll_cons (sys : ParticleSystem) (i : ParticleSystem.SpawnInput)
    (ins : List ParticleSystem.SpawnInput) :
    ParticleSystem.spawnAll sys (i :: ins)
      = ParticleSystem.spawnAll (sys.createParticle i.position i.vel i.hue).1 ins := rfl

lemma spawnAll_config (sys : ParticleSystem) (inputs : List ParticleSystem.SpawnInput) :
    (ParticleSystem.spawnAll sys inputs).config = sys.config := by
  induction inputs generalizing sys with
  | nil => rfl
  | cons i ins ih => rw [spawnAll_cons]; exact ih _

lemma spawnAll_length (inputs : List ParticleSystem.SpawnInput) :
    ∀ sys : ParticleSystem, 1 ≤ sys.config.maxParticles →
      sys.particles.length ≤ sys.config.maxParticles →
      (ParticleSystem.spawnAll sys inputs).particles.length
        = min (sys.particles.length + inputs.length) sys.config.maxParticles := by
  induction inputs with
  | nil =>
      intro sys hmax hle
      simp only [ParticleSystem.spawnAll, List.foldl_nil, List.length_nil]
      omega
  | cons i ins ih =>
      intro sys hmax hle
      rw [spawnAll_cons]
      have hc := createParticle_length sys i.position i.vel i.hue hmax hle
      have hcfg : ((sys.createParticle i.position i.vel i.hue).1).config = sys.config := rfl
      rw [ih _ (by rw [hcfg]; exact hmax) (by rw [hcfg, hc]; omega), hcfg, hc,
        List.length_cons]
      omega

/-- Counterexample for C4: with `maxParticles = 0`, a single
`createParticle` call starting from the empty system leaves one live
particle (`pop()` on the empty array is a no-op, then `push` appends), so
the live count exceeds `maxParticles`. -/
theorem particle_cap_cex :
    ¬ (ParticleSystem.spawnAll sysZ [iZ]).particles.length
        ≤ sysZ.config.maxParticles := by
  simp [ParticleSystem.spawnAll, ParticleSystem.createParticle, sysZ, cfgZ, iZ]

/-- C4 (amended): starting from an empty particle set, with
`maxParticles ≥ 1`, after any sequence of `createParticle` calls the number
of live particles is at most `maxParticles`. -/
theorem particle_cap_amended (cfg : GameConfig) (w h : ℝ)
    (inputs : List ParticleSystem.SpawnInput) (hmax : 1 ≤ cfg.maxParticles) :
    (ParticleSystem.spawnAll ⟨[], 0, cfg, w, h⟩ inputs).particles.length
      ≤ cfg.maxParticles := by
  have h2 : (ParticleSystem.spawnAll ⟨[], 0, cfg, w, h⟩ inputs).particles.length
      = min (0 + inputs.length) cfg.maxParticles :=
    spawnAll_length inputs ⟨[], 0, cfg, w, h⟩ hmax (by simp)
  rw [h2]
  exact min_le_right _ _

/-- Witness for C4 (amended): two spawns with `maxParticles = 1` leave at
most one live particle. -/
theorem particle_cap_amended_witness :
    (ParticleSystem.spawnAll ⟨[], 0, cfgOne, 100, 100⟩ [iZ, iZ]).particles.length
      ≤ cfgOne.maxParticles :=
  particle_cap_amended cfgOne 100 100 [iZ, iZ] (by norm_num [cfgOne])

/-- Counterexample for C6: with `maxParticles = 0`, spawning
`maxParticles + 1 = 1` particle from empty leaves `1 ≠ 0 = maxParticles`
live particles (nothing can be evicted from the empty array). -/
theorem eviction_cex :
    (ParticleSystem.spawnAll sysZ [iZ]).particles.length
      ≠ sysZ.config.maxParticles := by
  simp [ParticleSystem.spawnAll, ParticleSystem.createParticle, sysZ, cfgZ, iZ]

/-- C6 (amended): with `maxParticles ≥ 1`, a `createParticle` call at
capacity evicts exactly the most recently inserted particle (the tail of
the creation-ordered array) and appends the new one, which is returned and
sits at the tail; consequently spawning `maxParticles + 1` particles from
empty leaves exactly `maxParticles` live particles with the most recently
created one present. -/
theorem eviction_amended (sys : ParticleSystem) (pos vel : Vector2) (hue : ℝ)
    (hlen : sys.particles.length = sys.config.maxParticles)
    (hmax : 1 ≤ sys.config.maxParticles) :
    (sys.createParticle pos vel hue).1.particles
        = sys.particles.dropLast ++ [(sys.createParticle pos vel hue).2]
    ∧ (sys.createParticle pos vel hue).1.particles.length = sys.config.maxParticles
    ∧ (sys.createParticle pos vel hue).1.particles.getLast?
        = some (sys.createParticle pos vel hue).2
    ∧ ∀ ins : List ParticleSystem.SpawnInput, ins.length = sys.config.maxParticles →
        ((ParticleSystem.spawnAll ⟨[], 0, sys.config, sys.width, sys.height⟩ ins).createParticle
            pos vel hue).1.particles.length = sys.config.maxParticles
        ∧ ((ParticleSystem.spawnAll ⟨[], 0, sys.config, sys.width, sys.height⟩ ins).createParticle
            pos vel hue).1.particles.getLast?
          = some ((ParticleSystem.spawnAll
              ⟨[], 0, sys.config, sys.width, sys.height⟩ ins).createParticle pos vel hue).2 := by
  refine ⟨?_, ?_, createParticle_getLast sys pos vel hue, ?_⟩
  · rw [createParticle_particles_shape, if_pos (le_of_eq hlen.symm)]
  · rw [createParticle_length sys pos vel hue hmax (le_of_eq hlen), hlen]
    omega
  · intro ins hins
    have hcfg : (ParticleSystem.spawnAll ⟨[], 0, sys.config, sys.width, sys.height⟩ ins).config
        = sys.config := spawnAll_config _ _
    have hslen : (ParticleSystem.spawnAll
        ⟨[], 0, sys.config, sys.width, sys.height⟩ ins).particles.length
        = sys.config.maxParticles := by
      rw [spawnAll_length ins ⟨[], 0, sys.config, sys.width, sys.height⟩ hmax (by simp), hins]
      simp
    refine ⟨?_, createParticle_getLast _ pos vel hue⟩
    rw [createParticle_length _ pos vel hue (by rw [hcfg]; exact hmax)
        (by rw [hcfg, hslen]), hcfg, hslen]
    omega

/-- Witness for C6 (amended): at capacity `1`, one more spawn leaves
exactly one live particle. -/
theorem eviction_amended_witness :
    (sysOne.createParticle ⟨0, 0⟩ ⟨0, 0⟩ 200).1.particles.length
      = sysOne.config.maxParticles :=
  (eviction_amended sysOne ⟨0, 0⟩ ⟨0, 0⟩ 200 rfl (by norm_num [sysOne, cfgOne])).2.1

/-- C7: starting from an empty accumulator, a frame whose measured
`deltaTime` is `2.5 * fixedDelta` performs exactly two fixed updates (each
with `dt = fixedDelta`), leaves `0.5 * fixedDelta` in the accumulator, and
renders exactly once: such a frame execution exists, and every frame
execution from that state has exactly this shape. -/
theorem engine_accumulator :
    Engine.FrameRel 0 (2.5 * Engine.fixedDelta) [Engine.fixedDelta, Engine.fixedDelta]
        (0.5 * Engine.fixedDelta) 1
    ∧ ∀ (upds : List ℝ) (acc' : ℝ) (r : ℕ),
        Engine.FrameRel 0 (2.5 * Engine.fixedDelta) upds acc' r →
          upds = [Engine.fixedDelta, Engine.fixedDelta]
          ∧ acc' = 0.5 * Engine.fixedDelta ∧ r = 1 := by
  have hfd : Engine.fixedDelta = 1 / 60 := rfl
  have d0 : Engine.DrainRel (0.5 * Engine.fixedDelta) [] (0.5 * Engine.fixedDelta) :=
    .done (by rw [hfd]; norm_num)
  have d1 : Engine.DrainRel (1.5 * Engine.fixedDelta) [Engine.fixedDelta]
      (0.5 * Engine.fixedDelta) := by
    refine .step (by rw [hfd]; norm_num) ?_
    rw [show (1.5 : ℝ) * Engine.fixedDelta - Engine.fixedDelta
        = 0.5 * Engine.fixedDelta by ring]
    exact d0
  have d2 : Engine.DrainRel (0 + 2.5 * Engine.fixedDelta)
      [Engine.fixedDelta, Engine.fixedDelta] (0.5 * Engine.fixedDelta) := by
    refine .step (by rw [hfd]; norm_num) ?_
    rw [show (0 : ℝ) + 2.5 * Engine.fixedDelta - Engine.fixedDelta
        = 1.5 * Engine.fixedDelta by ring]
    exact d1
  refine ⟨.mk d2, ?_⟩
  intro upds acc' r hf
  cases hf with
  | mk hd =>
      cases hd with
      | done hlt => exact absurd hlt (by rw [hfd]; norm_num)
      | step hge hd1 =>
          rw [show (0 : ℝ) + 2.5 * Engine.fixedDelta - Engine.fixedDelta
              = 1.5 * Engine.fixedDelta by ring] at hd1
          cases hd1 with
          | done hlt => exact absurd hlt (by rw [hfd]; norm_num)
          | step hge2 hd2 =>
              rw [show (1.5 : ℝ) * Engine.fixedDelta - Engine.fixedDelta
                  = 0.5 * Engine.fixedDelta by ring] at hd2
              cases hd2 with
              | done _ => exact ⟨rfl, rfl, rfl⟩
              | step hge3 _ => exact absurd hge3 (by rw [hfd]; norm_num)

/-- Witness for C7: the exhibited frame execution satisfies the uniqueness
part of the theorem. -/
theorem engine_accumulator_witness :
    Engine.FrameRel 0 (2.5 * Engine.fixedDelta) [Engine.fixedDelta, Engine.fixedDelta]
        (0.5 * Engine.fixedDelta) 1
    ∧ ([Engine.fixedDelta, Engine.fixedDelta] = [Engine.fixedDelta, Engine.fixedDelta]
        ∧ (0.5 * Engine.fixedDelta : ℝ) = 0.5 * Engine.fixedDelta ∧ (1 : ℕ) = 1) :=
  ⟨engine_accumulator.1,
   engine_accumulator.2 [Engine.fixedDelta, Engine.fixedDelta] (0.5 * Engine.fixedDelta) 1
     engine_accumulator.1⟩

/-- Counterexample for C3: in a 4×4 viewport with particle radius 5 the
constraint rectangle `[radius, width-radius] × [radius, height-radius]` is
empty; after `update` the surviving particle sits at `x = 5`, which is not
`≤ width - radius = -1`, so the claim fails as stated. -/
theorem boundary_containment_cex :
    (sysB.update 1 []).particles
        = [ParticleSystem.integrateParticle sysB.config sysB.width sysB.height 1 [] pB]
    ∧ ¬ ((ParticleSystem.integrateParticle sysB.config sysB.width
            sysB.height 1 [] pB).position.x
          ≤ sysB.width
            - (ParticleSystem.integrateParticle sysB.config sysB.width
                sysB.height 1 [] pB).radius) := by
  have hv : ParticleSystem.verletStep sysB.config 1 [] pB
      = ⟨0, ⟨2, 2⟩, ⟨2, 2⟩, ⟨0, 0⟩, ⟨0, 0⟩, 1, 5, hsl 200 80 60, 2, 2, false⟩ := by
    simp only [ParticleSystem.verletStep, ParticleSystem.calculateForces, List.foldl_nil,
      Vec2.create, Vec2.sub, Vec2.mult, sysB, cfgB, pB]
    norm_num
  have hrad : (ParticleSystem.integrateParticle sysB.config sysB.width
      sysB.height 1 [] pB).radius = pB.radius := by
    rw [integrateParticle_of_not_fixed sysB.config sysB.width sysB.height 1 [] pB rfl]
    dsimp only
    rw [applyConstraints_radius, verletStep_radius]
  have hx : (ParticleSystem.integrateParticle sysB.config sysB.width
      sysB.height 1 [] pB).position.x = 5 := by
    rw [integrateParticle_of_not_fixed sysB.config sysB.width sysB.height 1 [] pB rfl]
    dsimp only
    rw [ParticleSystem.applyConstraints, constrainY_posx, constrainX_posx, hv]
    norm_num
  have hlife : (ParticleSystem.integrateParticle sysB.config sysB.width
      sysB.height 1 [] pB).life > 0 := by
    rw [integrateParticle_life sysB.config sysB.width sysB.height 1 [] pB rfl]
    simp [pB]
  constructor
  · rw [update_particles]
    show (List.map (ParticleSystem.integrateParticle sysB.config sysB.width
        sysB.height 1 []) [pB]).filter (fun p => decide (p.life > 0)) = _
    rw [List.map_cons, List.map_nil, List.filter_cons]
    simp [hlife]
  · rw [hx, hrad]
    show ¬ ((5 : ℝ) ≤ sysB.width - pB.radius)
    simp [sysB, pB]
    norm_num

/-- C3 (amended): provided the constraint rectangle is nonempty for every
particle (`2·radius ≤ width` and `2·radius ≤ height`), every surviving
non-fixed particle's position after `update` returns lies within
`[radius, width-radius] × [radius, height-radius]`. -/
theorem boundary_containment_amended (sys : ParticleSystem) (dt : ℝ)
    (fields : List ForceField)
    (hdim : ∀ q ∈ sys.particles, 2 * q.radius ≤ sys.width ∧ 2 * q.radius ≤ sys.height) :
    ∀ p ∈ (sys.update dt fields).particles, p.fixed = false →
      p.radius ≤ p.position.x ∧ p.position.x ≤ sys.width - p.radius
      ∧ p.radius ≤ p.position.y ∧ p.position.y ≤ sys.height - p.radius := by
  intro p hp hpfix
  rw [update_particles] at hp
  obtain ⟨q, hq, hpq⟩ := List.mem_map.mp (List.mem_filter.mp hp).1
  subst hpq
  by_cases hfix : q.fixed = true
  · rw [ParticleSystem.integrateParticle, if_pos hfix] at hpfix
    rw [hfix] at hpfix
    exact absurd hpfix (by simp)
  · have hfix' : q.fixed = false := by simpa using hfix
    have hb := applyConstraints_bounds sys.width sys.height
      (ParticleSystem.verletStep sys.config dt fields q)
      (by rw [verletStep_radius]; exact (hdim q hq).1)
      (by rw [verletStep_radius]; exact (hdim q hq).2)
    rw [verletStep_radius] at hb
    have hpos : (ParticleSystem.integrateParticle sys.config sys.width sys.height
        dt fields q).position
        = (ParticleSystem.applyConstraints sys.width sys.height
            (ParticleSystem.verletStep sys.config dt fields q)).position := by
      rw [integrateParticle_of_not_fixed sys.config sys.width sys.height dt fields q hfix']
    have hprad : (ParticleSystem.integrateParticle sys.config sys.width sys.height
        dt fields q).radius = q.radius := by
      rw [integrateParticle_of_not_fixed sys.config sys.width sys.height dt fields q hfix']
      dsimp only
      rw [applyConstraints_radius, verletStep_radius]
    rw [hpos, hprad]
    exact hb

/-- Witness for C3 (amended): the resting particle `pC` survives a tick in
the 400×400 viewport and ends inside the constraint rectangle. -/
theorem boundary_containment_amended_witness :
    (ParticleSystem.integrateParticle sysC.config sysC.width sysC.height 1 [] pC)
        ∈ (sysC.update 1 []).particles
    ∧ ((ParticleSystem.integrateParticle sysC.config sysC.width sysC.height
          1 [] pC).radius
        ≤ (ParticleSystem.integrateParticle sysC.config sysC.width sysC.height
            1 [] pC).position.x
      ∧ (ParticleSystem.integrateParticle sysC.config sysC.width sysC.height
            1 [] pC).position.x
        ≤ sysC.width - (ParticleSystem.integrateParticle sysC.config sysC.width
            sysC.height 1 [] pC).radius
      ∧ (ParticleSystem.integrateParticle sysC.config sysC.width sysC.height
            1 [] pC).radius
        ≤ (ParticleSystem.integrateParticle sysC.config sysC.width sysC.height
            1 [] pC).position.y
      ∧ (ParticleSystem.integrateParticle sysC.config sysC.width sysC.height
            1 [] pC).position.y
        ≤ sysC.height - (ParticleSystem.integrateParticle sysC.config sysC.width
            sysC.height 1 [] pC).radius) := by
  have hlife : (ParticleSystem.integrateParticle sysC.config sysC.width
      sysC.height 1 [] pC).life > 0 := by
    rw [integrateParticle_life sysC.config sysC.width sysC.height 1 [] pC rfl]
    simp [pC]
  have hmem : (ParticleSystem.integrateParticle sysC.config sysC.width sysC.height 1 [] pC)
      ∈ (sysC.update 1 []).particles := by
    rw [update_particles]
    show _ ∈ (List.map (ParticleSystem.integrateParticle sysC.config sysC.width
        sysC.height 1 []) [pC]).filter (fun p => decide (p.life > 0))
    rw [List.map_cons, List.map_nil, List.filter_cons]
    simp [hlife]
  have hfix : (ParticleSystem.integrateParticle sysC.config sysC.width
      sysC.height 1 [] pC).fixed = false := by
    rw [integrateParticle_of_not_fixed sysC.config sysC.width sysC.height 1 [] pC rfl]
    dsimp only
    rw [applyConstraints_fixed, verletStep_fixed]
    rfl
  refine ⟨hmem, boundary_containment_amended sysC 1 [] ?_ _ hmem hfix⟩
  intro q hq
  have : q = pC := by simpa [sysC] using hq
  subst this
  constructor <;> · simp [pC, sysC] ; norm_num

end QuantumGarden
